import Mathlib

/-!
Verification development for the TUI-Timer application (`main.go`).

The Go program is a bubbletea TUI: a `model` value is threaded through an
`Update` function that receives discrete messages (key presses, one-second
countdown ticks, half-second blink ticks, window resizes) and returns the new
model plus follow-up commands (reschedule a tick, start the alarm-sound task,
quit).  This file is a shallow embedding of that state machine:

* `Timer` and `Model` mirror the Go structs `Timer` and `model`
  (`time.Duration` values are embedded as `Int` nanoseconds, which is exactly
  Go's `int64` representation; the parser performs the same `2^63` range
  checks as the Go standard library, so no silent wraparound can occur on the
  values it produces).
* The opaque `context.CancelFunc` handle is embedded as `Option Nat`: task
  handles are numbered by a fresh counter `nextCtx`, and calling a cancel
  function is recorded by appending its number to the `cancelled` log.
* `parseDuration` is a faithful transcription of Go's
  `time.ParseDuration` / `leadingInt` / `leadingFraction` (the external parser
  the program calls), including the `2^63` overflow checks and the special
  case for the literal "0".  The one deviation: Go computes the fractional
  contribution `uint64(float64(f) * (float64(unit)/scale))` in binary floating
  point; here it is the exact `f * unit / scale` in `Nat`.  The two agree on
  every input exercised in this development (none has a fractional part whose
  float rounding differs from exact division).
* `update` is a branch-by-branch transcription of Go's `model.Update`.
-/

namespace TUITimer

/-- One second in nanoseconds (`time.Second`). -/
abbrev second : Int := 1000000000

/-- Focus constants (`Focus` is `int` in Go): `INPUT = 0`. -/
abbrev INPUT : Int := 0

/-- `ADD = 1`. -/
abbrev ADD : Int := 1

/-- `START = 2`. -/
abbrev START : Int := 2

/-- `STOP = 3`. -/
abbrev STOP : Int := 3

/-- `RESET = 4`. -/
abbrev RESET : Int := 4

/-- `QUIT = 5`. -/
abbrev QUIT : Int := 5

/-- The Go `Timer` struct.  Durations are `Int` nanoseconds. -/
structure Timer where
  ID : Int
  Duration : Int
  Remaining : Int
  Running : Bool
  Finished : Bool
  Alarming : Bool
deriving Repr, DecidableEq

/-- The Go `model` struct.  `textValue` is the value held by the external
`textinput` widget; `alarmCancel` is the optional handle of the in-flight
alarm-sound task; `nextCtx` numbers freshly created task handles and
`cancelled` logs every handle whose cancel function has been invoked. -/
structure Model where
  textValue : String
  timers : List Timer
  nextID : Int
  blink : Bool
  width : Int
  height : Int
  focusIndex : Int
  focusState : Int
  alarmCancel : Option Nat
  nextCtx : Nat
  cancelled : List Nat
deriving Repr, DecidableEq

/-- Messages consumed by `Update`: window resizes, key presses (identified by
their `msg.String()` representation, which is what the Go code switches on),
second ticks and blink ticks. -/
inductive Msg where
  | windowSizeMsg (w h : Int)
  | keyMsg (s : String)
  | tickMsg
  | blinkMsg
deriving Repr, DecidableEq

/-- Commands returned by `Update`: `tea.Quit`, `tickCmd()`, `blinkCmd()`, the
alarm-sound task bound to cancellation handle `ctx`, and the opaque commands
returned by the external textinput widget (focus/blink commands). -/
inductive Cmd where
  | quitCmd
  | tickCmd
  | blinkCmd
  | startSound (ctx : Nat)
  | inputCmd
deriving Repr, DecidableEq

/-- True exactly on the `startSound` command. -/
def Cmd.isStartSound : Cmd → Bool
  | .startSound _ => true
  | _ => false

/-- Go's `unitMap` from `time.ParseDuration`: nanoseconds per unit suffix. -/
def nsPerUnit (u : String) : Option Nat :=
  if u = "ns" then some 1
  else if u = "us" then some 1000
  else if u = "µs" then some 1000
  else if u = "μs" then some 1000
  else if u = "ms" then some 1000000
  else if u = "s" then some 1000000000
  else if u = "m" then some 60000000000
  else if u = "h" then some 3600000000000
  else none

/-- Go's `leadingInt`: consume leading decimal digits into `x`, failing when
the accumulator would pass `2^63` (checked exactly as in Go: first
`x > 2^63/10` on the old value, then `y > 2^63` on the new one). -/
def leadingInt : Nat → List Char → Option (Nat × List Char)
  | x, [] => some (x, [])
  | x, c :: rest =>
    if c.isDigit then
      if x > 2 ^ 63 / 10 then none
      else
        let y := x * 10 + (c.toNat - '0'.toNat)
        if y > 2 ^ 63 then none
        else leadingInt y rest
    else some (x, c :: rest)

/-- Go's `leadingFraction`: consume digits after the decimal point into `x`
with scale `scale`; on overflow further digits are skipped rather than
rejected. -/
def leadingFraction : Nat → Nat → Bool → List Char → Nat × Nat × List Char
  | x, scale, _, [] => (x, scale, [])
  | x, scale, overflow, c :: rest =>
    if c.isDigit then
      if overflow then leadingFraction x scale overflow rest
      else if x > (2 ^ 63 - 1) / 10 then leadingFraction x scale true rest
      else
        let y := x * 10 + (c.toNat - '0'.toNat)
        if y > 2 ^ 63 then leadingFraction x scale true rest
        else leadingFraction y (scale * 10) overflow rest
    else (x, scale, c :: rest)

/-- Consume the unit suffix: every character up to the next digit or '.'
(mirrors the index scan in `ParseDuration`). -/
def takeUnit : List Char → List Char × List Char
  | [] => ([], [])
  | c :: rest =>
    if c = '.' ∨ c.isDigit then ([], c :: rest)
    else
      let p := takeUnit rest
      (c :: p.1, p.2)

/-- The main loop of Go's `ParseDuration`: repeatedly parse
`[0-9]*(\.[0-9]*)?<unit>` and accumulate nanoseconds into `d`, with Go's
overflow checks.  Each successful iteration consumes at least one character,
so fuel `length + 1` never runs out on the inputs Go would accept. -/
def durLoop : Nat → Nat → List Char → Option Nat
  | _, d, [] => some d
  | 0, _, _ => none
  | fuel + 1, d, c :: s0 =>
    if ¬(c = '.' ∨ c.isDigit) then none
    else
      match leadingInt 0 (c :: s0) with
      | none => none
      | some (v, s1) =>
        let pre : Bool := decide (s1.length ≠ (c :: s0).length)
        let fr : Nat × Nat × List Char × Bool :=
          match s1 with
          | '.' :: s1x =>
            let q := leadingFraction 0 1 false s1x
            (q.1, q.2.1, q.2.2, decide (q.2.2.length ≠ s1x.length))
          | _ => (0, 1, s1, false)
        match fr with
        | (f, scale, s2, post) =>
          if pre = false ∧ post = false then none
          else
            let u := takeUnit s2
            if u.1.isEmpty then none
            else
              match nsPerUnit (String.mk u.1) with
              | none => none
              | some unit =>
                if v > 2 ^ 63 / unit then none
                else
                  let v1 := v * unit
                  let v2 := if f > 0 then v1 + f * unit / scale else v1
                  if f > 0 ∧ v2 > 2 ^ 63 then none
                  else if d + v2 > 2 ^ 63 then none
                  else durLoop fuel (d + v2) u.2

/-- Go's `time.ParseDuration`, the external parser invoked by the enter
handler: optional sign, the special case "0", then `durLoop`; a failed parse
is `none` (Go's non-nil error). -/
def parseDuration (str : String) : Option Int :=
  let s0 := str.data
  let sn : Bool × List Char :=
    match s0 with
    | '-' :: rest => (true, rest)
    | '+' :: rest => (false, rest)
    | _ => (false, s0)
  let neg := sn.1
  let s := sn.2
  if s = ['0'] then some 0
  else if s.isEmpty then none
  else
    match durLoop (s.length + 1) 0 s with
    | none => none
    | some d =>
      if neg then some (-(d : Int))
      else if d > 2 ^ 63 - 1 then none
      else some ((d : Int))

/-- Value component of the external bubbles `textinput` widget's `Update`
(the widget is an opaque external collaborator; this models the part the
program observes through `Value()`): a single-rune key press is inserted,
subject to `CharLimit = 20`; control keys such as "enter" and the navigation
keys have no binding in the single-line widget and leave the value unchanged,
as do non-key messages. -/
def textInputUpdateValue (value : String) (msg : Msg) : String :=
  match msg with
  | .keyMsg s => if s.length = 1 ∧ value.length < 20 then value ++ s else value
  | _ => value

/-- The alarm-dismissal loop at the top of the `tea.KeyMsg` case: clear
`Alarming` on every timer. -/
def dismissAlarms (ts : List Timer) : List Timer :=
  ts.map fun t => if t.Alarming then { t with Alarming := false } else t

/-- The `START` (global resume) loop: `if !t.Finished { t.Running = true }`. -/
def resumeAll (ts : List Timer) : List Timer :=
  ts.map fun t => if !t.Finished then { t with Running := true } else t

/-- The `STOP` (global pause) loop: `t.Running = false` for every timer. -/
def pauseAll (ts : List Timer) : List Timer :=
  ts.map fun t => { t with Running := false }

/-- One timer's transition on a second tick (`tickMsg` loop body):
a running timer with time left loses one second and, if that reaches (or
passes) zero, is clamped to zero and marked finished and alarming. -/
def tickTimer (t : Timer) : Timer :=
  if t.Running = true ∧ 0 < t.Remaining then
    if t.Remaining - second ≤ 0 then
      { t with Remaining := 0, Running := false, Finished := true, Alarming := true }
    else { t with Remaining := t.Remaining - second }
  else t

/-- Whether the tick loop body sets `anyFinishedNow` for this timer. -/
def timerFinishesNow (t : Timer) : Bool :=
  t.Running && decide (0 < t.Remaining) && decide (t.Remaining - second ≤ 0)

/-- `ID` of the last timer in the list (the Go code reads
`m.timers[len(m.timers)-1].ID`); 0 on the empty list, which the Go code never
reads because it checks emptiness first. -/
def lastID : List Timer → Int
  | [] => 0
  | t :: ts => if ts.isEmpty then t.ID else lastID ts

/-- Go's `GetNewID`: 1 on an empty registry, otherwise the last timer's
`ID + 1`. -/
def GetNewID (m : Model) : Int :=
  if m.timers.isEmpty then 1 else lastID m.timers + 1

/-- The navigation-key switch (`tab`/`shift+tab`/`left`/`right`/`up`/`down`)
acting on `(focusIndex, focusState)`. -/
def navUpdate (s : String) (fi fs : Int) : Int × Int :=
  if s = "tab" then
    let x := fi + 1
    (if x > QUIT then INPUT else x, fs)
  else if s = "shift+tab" then
    let x := fi - 1
    (if x < INPUT then QUIT else x, fs)
  else if s = "left" then
    if fi = INPUT then (fi, fs)
    else if fi = ADD then (QUIT, QUIT)
    else (fi - 1, fi - 1)
  else if s = "right" then
    if fi = INPUT then (fi, fs)
    else if fi = QUIT then (ADD, ADD)
    else (fi + 1, fi + 1)
  else if s = "up" then
    (if fi > INPUT then INPUT else fi, fs)
  else if s = "down" then
    if fi = INPUT then (if fs > INPUT then fs else ADD, fs)
    else (fi, fs)
  else (fi, fs)

/-- The clamp applied after the navigation switch:
`if fi > QUIT { fi = INPUT } else if fi < INPUT { fi = QUIT }`. -/
def clampFocus (fi : Int) : Int :=
  if fi > QUIT then INPUT else if fi < INPUT then QUIT else fi

/-- The code at the bottom of `Update`, reached by every branch that does not
return early: when focus is on the input field, forward the message to the
external textinput widget (whose command is opaque). -/
def finishUpdate (m : Model) (msg : Msg) : Model × List Cmd :=
  if m.focusIndex = INPUT then
    ({ m with textValue := textInputUpdateValue m.textValue msg }, [Cmd.inputCmd])
  else (m, [])

/-- `if m.alarmCancel != nil { m.alarmCancel(); m.alarmCancel = nil }`:
invoke (log) and clear the alarm-task handle. -/
def cancelAndClear (m : Model) : Model :=
  match m.alarmCancel with
  | some c => { m with cancelled := m.cancelled ++ [c], alarmCancel := none }
  | none => m

/-- The navigation branch of the key handler: run the switch, clamp, store
both fields, then focus or blur the input widget. -/
def navCase (m : Model) (s : String) : Model × List Cmd :=
  let p := navUpdate s m.focusIndex m.focusState
  let fi := clampFocus p.1
  let m1 := { m with focusIndex := fi, focusState := p.2 }
  if fi = INPUT then (m1, [Cmd.inputCmd]) else (m1, [])

/-- The shared body of the `INPUT` and `ADD` enter branches: parse the input
text; on a positive duration append a fresh timer and clear the text. -/
def createTimer (m : Model) : Model :=
  match parseDuration m.textValue with
  | some d =>
    if d > 0 then
      { m with
        timers := m.timers ++
          [{ ID := GetNewID m, Duration := d, Remaining := d,
             Running := true, Finished := false, Alarming := false }],
        textValue := "" }
    else m
  | none => m

/-- The `enter` branch of the key handler, dispatching on the focused
control; every branch except `QUIT` falls through to `finishUpdate`. -/
def enterCase (m : Model) (msg : Msg) : Model × List Cmd :=
  if m.focusIndex = INPUT then finishUpdate (createTimer m) msg
  else if m.focusIndex = ADD then finishUpdate (createTimer m) msg
  else if m.focusIndex = START then
    finishUpdate { m with timers := resumeAll m.timers } msg
  else if m.focusIndex = STOP then
    finishUpdate { m with timers := pauseAll m.timers } msg
  else if m.focusIndex = RESET then
    let m1 := cancelAndClear m
    finishUpdate { m1 with timers := [] } msg
  else if m.focusIndex = QUIT then
    (match m.alarmCancel with
     | some c => { m with cancelled := m.cancelled ++ [c] }
     | none => m,
     [Cmd.quitCmd])
  else finishUpdate m msg

/-- The `tickMsg` case: advance every timer, and when at least one timer
newly finished, cancel any running sound task, start a fresh one (recording
its handle) and reschedule; otherwise just reschedule. -/
def tickCase (m : Model) : Model × List Cmd :=
  let ts := m.timers.map tickTimer
  let anyFinishedNow := m.timers.any timerFinishesNow
  let m1 := { m with timers := ts }
  if anyFinishedNow then
    let m2 :=
      match m1.alarmCancel with
      | some c => { m1 with cancelled := m1.cancelled ++ [c] }
      | none => m1
    let ctx := m2.nextCtx
    ({ m2 with alarmCancel := some ctx, nextCtx := ctx + 1 },
     [Cmd.startSound ctx, Cmd.tickCmd])
  else (m1, [Cmd.tickCmd])

/-- Go's `model.Update`, branch by branch.  The `tea.KeyMsg` case first
clears every `Alarming` flag and cancels/clears the sound-task handle; when
some timer was alarming the key press is consumed (`return m, nil`);
otherwise it dispatches on the key string exactly as the Go switch does. -/
def update (m : Model) (msg : Msg) : Model × List Cmd :=
  match msg with
  | .windowSizeMsg w h => finishUpdate { m with width := w, height := h } msg
  | .keyMsg s =>
    let anyAlarming := m.timers.any (·.Alarming)
    let m1 := cancelAndClear { m with timers := dismissAlarms m.timers }
    if anyAlarming then (m1, [])
    else if s = "ctrl+c" ∨ s = "q" then (m1, [Cmd.quitCmd])
    else if s = "tab" ∨ s = "shift+tab" ∨ s = "left" ∨ s = "right" ∨
        s = "up" ∨ s = "down" then
      navCase m1 s
    else if s = "enter" then enterCase m1 msg
    else finishUpdate m1 msg
  | .tickMsg => tickCase m
  | .blinkMsg => ({ m with blink := !m.blink }, [Cmd.blinkCmd])

/-- Go's `initialModel` (zero values for the fields not set explicitly). -/
def initialModel : Model :=
  { textValue := ""
    timers := []
    nextID := 1
    blink := false
    width := 0
    height := 0
    focusIndex := INPUT
    focusState := INPUT
    alarmCancel := none
    nextCtx := 0
    cancelled := [] }

/-- Run `update` over a list of messages, keeping only the model. -/
def applyMsgs (m : Model) : List Msg → Model
  | [] => m
  | msg :: rest => applyMsgs (update m msg).1 rest

/-- A model is reachable when some message sequence produces it from the
initial model. -/
def Reachable (m : Model) : Prop :=
  ∃ msgs : List Msg, applyMsgs initialModel msgs = m

/-! ### Invariants of reachable states -/

/-- The alarm-task handle is present only while some timer is alarming. -/
def AlarmInv (m : Model) : Prop :=
  m.alarmCancel ≠ none → ∃ t ∈ m.timers, t.Alarming = true

/-- No finished timer is running. -/
def FinStop (ts : List Timer) : Prop :=
  ∀ t ∈ ts, t.Finished = true → t.Running = false

/-- The last timer's `ID` bounds every `ID` in the registry, so `GetNewID`
(which reads the last `ID`) returns the maximum `ID` plus one. -/
def LastMax (ts : List Timer) : Prop :=
  ∀ t ∈ ts, t.ID ≤ lastID ts

/-! ### Projection lemmas for the update helpers -/

theorem cancelAndClear_alarmCancel (m : Model) : (cancelAndClear m).alarmCancel = none := by
  unfold cancelAndClear; split <;> simp_all

theorem cancelAndClear_timers (m : Model) : (cancelAndClear m).timers = m.timers := by
  unfold cancelAndClear; split <;> rfl

theorem cancelAndClear_textValue (m : Model) : (cancelAndClear m).textValue = m.textValue := by
  unfold cancelAndClear; split <;> rfl

theorem cancelAndClear_focusIndex (m : Model) : (cancelAndClear m).focusIndex = m.focusIndex := by
  unfold cancelAndClear; split <;> rfl

theorem cancelAndClear_focusState (m : Model) : (cancelAndClear m).focusState = m.focusState := by
  unfold cancelAndClear; split <;> rfl

theorem cancelAndClear_blink (m : Model) : (cancelAndClear m).blink = m.blink := by
  unfold cancelAndClear; split <;> rfl

theorem cancelAndClear_nextCtx (m : Model) : (cancelAndClear m).nextCtx = m.nextCtx := by
  unfold cancelAndClear; split <;> rfl

theorem cancelAndClear_of_none (m : Model) (h : m.alarmCancel = none) :
    cancelAndClear m = m := by
  unfold cancelAndClear; split <;> simp_all

theorem cancelAndClear_cancelled_of_some (m : Model) (c : Nat) (h : m.alarmCancel = some c) :
    (cancelAndClear m).cancelled = m.cancelled ++ [c] := by
  unfold cancelAndClear; split <;> simp_all

theorem mem_cancelAndClear_cancelled (m : Model) (c : Nat) (h : m.alarmCancel = some c) :
    c ∈ (cancelAndClear m).cancelled := by
  rw [cancelAndClear_cancelled_of_some m c h]; simp

theorem finishUpdate_timers (m : Model) (msg : Msg) :
    (finishUpdate m msg).1.timers = m.timers := by
  unfold finishUpdate; split <;> rfl

theorem finishUpdate_focusIndex (m : Model) (msg : Msg) :
    (finishUpdate m msg).1.focusIndex = m.focusIndex := by
  unfold finishUpdate; split <;> rfl

theorem finishUpdate_focusState (m : Model) (msg : Msg) :
    (finishUpdate m msg).1.focusState = m.focusState := by
  unfold finishUpdate; split <;> rfl

theorem finishUpdate_alarmCancel (m : Model) (msg : Msg) :
    (finishUpdate m msg).1.alarmCancel = m.alarmCancel := by
  unfold finishUpdate; split <;> rfl

theorem finishUpdate_cancelled (m : Model) (msg : Msg) :
    (finishUpdate m msg).1.cancelled = m.cancelled := by
  unfold finishUpdate; split <;> rfl

theorem finishUpdate_nextCtx (m : Model) (msg : Msg) :
    (finishUpdate m msg).1.nextCtx = m.nextCtx := by
  unfold finishUpdate; split <;> rfl

theorem finishUpdate_textValue (m : Model) (msg : Msg) :
    (finishUpdate m msg).1.textValue =
      if m.focusIndex = INPUT then textInputUpdateValue m.textValue msg
      else m.textValue := by
  unfold finishUpdate; split <;> simp_all

theorem textInputUpdateValue_enter (v : String) :
    textInputUpdateValue v (Msg.keyMsg "enter") = v := by
  simp only [textInputUpdateValue]
  rw [if_neg]
  rintro ⟨h, -⟩
  exact absurd h (by decide)

theorem finishUpdate_enter_textValue (m : Model) :
    (finishUpdate m (Msg.keyMsg "enter")).1.textValue = m.textValue := by
  rw [finishUpdate_textValue]; split <;> simp [textInputUpdateValue_enter]

theorem createTimer_alarmCancel (m : Model) : (createTimer m).alarmCancel = m.alarmCancel := by
  unfold createTimer; split
  · split <;> rfl
  · rfl

theorem createTimer_focusIndex (m : Model) : (createTimer m).focusIndex = m.focusIndex := by
  unfold createTimer; split
  · split <;> rfl
  · rfl

theorem createTimer_focusState (m : Model) : (createTimer m).focusState = m.focusState := by
  unfold createTimer; split
  · split <;> rfl
  · rfl

theorem createTimer_cancelled (m : Model) : (createTimer m).cancelled = m.cancelled := by
  unfold createTimer; split
  · split <;> rfl
  · rfl

theorem navCase_alarmCancel (m : Model) (s : String) :
    (navCase m s).1.alarmCancel = m.alarmCancel := by
  simp only [navCase]; split <;> rfl

theorem navCase_timers (m : Model) (s : String) :
    (navCase m s).1.timers = m.timers := by
  simp only [navCase]; split <;> rfl

theorem navCase_textValue (m : Model) (s : String) :
    (navCase m s).1.textValue = m.textValue := by
  simp only [navCase]; split <;> rfl

theorem navCase_cancelled (m : Model) (s : String) :
    (navCase m s).1.cancelled = m.cancelled := by
  simp only [navCase]; split <;> rfl

theorem navCase_focusIndex (m : Model) (s : String) :
    (navCase m s).1.focusIndex = clampFocus (navUpdate s m.focusIndex m.focusState).1 := by
  simp only [navCase]; split <;> rfl

theorem navCase_focusState (m : Model) (s : String) :
    (navCase m s).1.focusState = (navUpdate s m.focusIndex m.focusState).2 := by
  simp only [navCase]; split <;> rfl

/-! ### Lemmas about the timer-list operations -/

theorem dismissAlarms_alarming (ts : List Timer) :
    ∀ t ∈ dismissAlarms ts, t.Alarming = false := by
  intro t ht
  simp only [dismissAlarms, List.mem_map] at ht
  obtain ⟨u, -, rfl⟩ := ht
  by_cases h : u.Alarming = true <;> simp [h]

theorem dismissAlarms_any (ts : List Timer) :
    (dismissAlarms ts).any (·.Alarming) = false := by
  rw [List.any_eq_false]
  intro t ht
  simp [dismissAlarms_alarming ts t ht]

theorem dismissAlarms_eq_self (ts : List Timer) (h : ∀ t ∈ ts, t.Alarming = false) :
    dismissAlarms ts = ts := by
  induction ts with
  | nil => rfl
  | cons t ts ih =>
    have ht := h t (by simp)
    simp only [dismissAlarms, List.map_cons] at ih ⊢
    rw [ih fun u hu => h u (by simp [hu])]
    simp [ht]

theorem dismissAlarms_getElem? (ts : List Timer) (i : Nat) (t : Timer)
    (h : ts[i]? = some t) :
    (dismissAlarms ts)[i]? = some { t with Alarming := false } := by
  unfold dismissAlarms
  rw [List.getElem?_map, h]
  by_cases ha : t.Alarming = true
  · simp [ha]
  · simp only [Option.map_some']
    congr 1
    cases t
    simp_all

theorem not_any_of_forall_not_alarming (ts : List Timer) (h : ∀ t ∈ ts, t.Alarming = false) :
    ts.any (·.Alarming) = false := by
  rw [List.any_eq_false]; intro t ht; simp [h t ht]

theorem lastID_cons (t : Timer) (ts : List Timer) :
    lastID (t :: ts) = if ts.isEmpty then t.ID else lastID ts := rfl

theorem lastID_map (f : Timer → Timer) (hf : ∀ t, (f t).ID = t.ID) :
    ∀ ts : List Timer, lastID (ts.map f) = lastID ts := by
  intro ts
  induction ts with
  | nil => rfl
  | cons t ts ih =>
    cases ts with
    | nil => simp [lastID, hf]
    | cons b l =>
      simp only [List.map_cons, lastID_cons, List.isEmpty_cons] at ih ⊢
      simpa using ih

theorem lastID_concat (ts : List Timer) (t : Timer) : lastID (ts ++ [t]) = t.ID := by
  induction ts with
  | nil => simp [lastID]
  | cons a l ih =>
    cases l with
    | nil => simp [lastID]
    | cons b l2 => simpa [lastID_cons] using ih

theorem exists_mem_lastID (ts : List Timer) (h : ¬ts.isEmpty = true) :
    ∃ t ∈ ts, t.ID = lastID ts := by
  induction ts with
  | nil => simp at h
  | cons a l ih =>
    cases l with
    | nil => exact ⟨a, by simp, by simp [lastID]⟩
    | cons b l2 =>
      obtain ⟨t, ht, hid⟩ := ih (by simp)
      exact ⟨t, by simp [ht], by simp [lastID_cons, hid]⟩

theorem tickTimer_alarming (t : Timer) (h : t.Alarming = true) :
    (tickTimer t).Alarming = true := by
  unfold tickTimer
  split
  · split <;> simp [h]
  · simp [h]

theorem tickTimer_of_finishes (t : Timer) (h : timerFinishesNow t = true) :
    (tickTimer t).Running = false ∧ (tickTimer t).Remaining = 0 ∧
      (tickTimer t).Finished = true ∧ (tickTimer t).Alarming = true := by
  unfold timerFinishesNow at h
  simp only [Bool.and_eq_true, decide_eq_true_eq] at h
  unfold tickTimer
  rw [if_pos ⟨h.1.1, h.1.2⟩, if_pos h.2]
  simp

theorem tickTimer_ID (t : Timer) : (tickTimer t).ID = t.ID := by
  unfold tickTimer; split
  · split <;> rfl
  · rfl

/-- Shape of the timer list after any key press: the dismissed list, a global
resume/pause of it, the empty list (reset), or the dismissed list with one
fresh non-finished running timer appended whose `ID` is the last `ID` plus
one. -/
theorem update_keyMsg_timers (m : Model) (s : String) :
    (update m (Msg.keyMsg s)).1.timers = dismissAlarms m.timers ∨
    (update m (Msg.keyMsg s)).1.timers = resumeAll (dismissAlarms m.timers) ∨
    (update m (Msg.keyMsg s)).1.timers = pauseAll (dismissAlarms m.timers) ∨
    (update m (Msg.keyMsg s)).1.timers = [] ∨
    ∃ d : Int, (update m (Msg.keyMsg s)).1.timers = dismissAlarms m.timers ++
      [{ ID := if (dismissAlarms m.timers).isEmpty then 1
               else lastID (dismissAlarms m.timers) + 1,
         Duration := d, Remaining := d,
         Running := true, Finished := false, Alarming := false }] := by
  simp only [update]
  split
  · left; rw [cancelAndClear_timers]
  · split
    · left; rw [cancelAndClear_timers]
    · split
      · left; rw [navCase_timers, cancelAndClear_timers]
      · split
        · simp only [enterCase]
          split
          · rw [finishUpdate_timers]
            simp only [createTimer]
            split
            · split
              · rename_i d _ _
                right; right; right; right
                exact ⟨d, by simp only [GetNewID, cancelAndClear_timers]⟩
              · left; rw [cancelAndClear_timers]
            · left; rw [cancelAndClear_timers]
          · split
            · rw [finishUpdate_timers]
              simp only [createTimer]
              split
              · split
                · rename_i d _ _
                  right; right; right; right
                  exact ⟨d, by simp only [GetNewID, cancelAndClear_timers]⟩
                · left; rw [cancelAndClear_timers]
              · left; rw [cancelAndClear_timers]
            · split
              · right; left
                rw [finishUpdate_timers]
                simp only [cancelAndClear_timers]
              · split
                · right; right; left
                  rw [finishUpdate_timers]
                  simp only [cancelAndClear_timers]
                · split
                  · right; right; right; left
                    rw [finishUpdate_timers]
                  · split
                    · left
                      split <;> rw [cancelAndClear_timers]
                    · left
                      rw [finishUpdate_timers, cancelAndClear_timers]
        · left; rw [finishUpdate_timers, cancelAndClear_timers]

theorem update_keyMsg_alarmCancel (m : Model) (s : String) :
    (update m (Msg.keyMsg s)).1.alarmCancel = none := by
  have hc : (cancelAndClear { m with timers := dismissAlarms m.timers }).alarmCancel = none :=
    cancelAndClear_alarmCancel _
  simp only [update]
  split
  · exact hc
  · split
    · exact hc
    · split
      · rw [navCase_alarmCancel]; exact hc
      · split
        · simp only [enterCase]
          split
          · rw [finishUpdate_alarmCancel, createTimer_alarmCancel]; exact hc
          · split
            · rw [finishUpdate_alarmCancel, createTimer_alarmCancel]; exact hc
            · split
              · rw [finishUpdate_alarmCancel]; exact hc
              · split
                · rw [finishUpdate_alarmCancel]; exact hc
                · split
                  · rw [finishUpdate_alarmCancel]; exact cancelAndClear_alarmCancel _
                  · split
                    · split
                      · simp_all
                      · exact hc
                    · rw [finishUpdate_alarmCancel]; exact hc
        · rw [finishUpdate_alarmCancel]; exact hc

/-! ### Preservation of the invariants by every event -/

theorem finStop_map (f : Timer → Timer) (ts : List Timer)
    (h : ∀ t ∈ ts, t.Finished = true → t.Running = false)
    (hf : ∀ t ∈ ts, (t.Finished = true → t.Running = false) →
      (f t).Finished = true → (f t).Running = false) :
    FinStop (ts.map f) := by
  intro u hu
  simp only [List.mem_map] at hu
  obtain ⟨t, ht, rfl⟩ := hu
  exact hf t ht (h t ht)

theorem finStop_dismiss (ts : List Timer) (h : FinStop ts) : FinStop (dismissAlarms ts) := by
  apply finStop_map _ _ h
  intro t _ hfr
  split <;> simpa

theorem finStop_resumeAll (ts : List Timer) (h : FinStop ts) : FinStop (resumeAll ts) := by
  apply finStop_map _ _ h
  intro t _ hfr
  split
  · rename_i hnf
    simp only [Bool.not_eq_true'] at hnf
    simp [hnf]
  · exact hfr

theorem finStop_pauseAll (ts : List Timer) (h : FinStop ts) : FinStop (pauseAll ts) := by
  apply finStop_map _ _ h
  intro t _ _ _
  rfl

theorem finStop_tick (ts : List Timer) (h : FinStop ts) : FinStop (ts.map tickTimer) := by
  apply finStop_map _ _ h
  intro t _ hfr
  unfold tickTimer
  split
  · split
    · intro; rfl
    · rename_i hrun _
      intro hfin
      exact absurd hrun.1 (by simp [hfr hfin])
  · exact hfr

theorem finStop_append (ts : List Timer) (t : Timer) (h : FinStop ts)
    (ht : t.Finished = false) : FinStop (ts ++ [t]) := by
  intro u hu
  rcases List.mem_append.mp hu with h1 | h1
  · exact h u h1
  · simp only [List.mem_singleton] at h1
    subst h1
    intro hfin
    rw [ht] at hfin
    cases hfin

theorem finStop_step (m : Model) (msg : Msg) (h : FinStop m.timers) :
    FinStop (update m msg).1.timers := by
  cases msg with
  | windowSizeMsg w h2 =>
    simp only [update]
    rw [finishUpdate_timers]
    exact h
  | keyMsg s =>
    have hd := finStop_dismiss m.timers h
    rcases update_keyMsg_timers m s with hc | hc | hc | hc | ⟨d, hc⟩ <;> rw [hc]
    · exact hd
    · exact finStop_resumeAll _ hd
    · exact finStop_pauseAll _ hd
    · intro u hu; cases hu
    · exact finStop_append _ _ hd rfl
  | tickMsg =>
    simp only [update, tickCase]
    split
    · split <;> exact finStop_tick m.timers h
    · exact finStop_tick m.timers h
  | blinkMsg => exact h

theorem lastMax_map (f : Timer → Timer) (ts : List Timer)
    (hf : ∀ t, (f t).ID = t.ID) (h : LastMax ts) : LastMax (ts.map f) := by
  intro u hu
  simp only [List.mem_map] at hu
  obtain ⟨t, ht, rfl⟩ := hu
  rw [lastID_map f hf, hf]
  exact h t ht

theorem dismissAlarms_ID_pointwise (t : Timer) :
    (if t.Alarming = true then { t with Alarming := false } else t).ID = t.ID := by
  split <;> rfl

theorem resumeAll_ID_pointwise (t : Timer) :
    (if !t.Finished then { t with Running := true } else t).ID = t.ID := by
  split <;> rfl

theorem lastMax_dismiss (ts : List Timer) (h : LastMax ts) : LastMax (dismissAlarms ts) :=
  lastMax_map _ ts dismissAlarms_ID_pointwise h

theorem lastMax_append (ts : List Timer) (t : Timer) (h : LastMax ts)
    (ht : t.ID = if ts.isEmpty then 1 else lastID ts + 1) :
    LastMax (ts ++ [t]) := by
  intro u hu
  rw [lastID_concat]
  rcases List.mem_append.mp hu with h1 | h1
  · cases ts with
    | nil => cases h1
    | cons a l =>
      have hu2 : u.ID ≤ lastID (a :: l) := h u h1
      rw [if_neg (by simp)] at ht
      omega
  · simp only [List.mem_singleton] at h1
    subst h1
    exact le_refl _

theorem lastMax_step (m : Model) (msg : Msg) (h : LastMax m.timers) :
    LastMax (update m msg).1.timers := by
  cases msg with
  | windowSizeMsg w h2 =>
    simp only [update]
    rw [finishUpdate_timers]
    exact h
  | keyMsg s =>
    have hd := lastMax_dismiss m.timers h
    rcases update_keyMsg_timers m s with hc | hc | hc | hc | ⟨d, hc⟩ <;> rw [hc]
    · exact hd
    · exact lastMax_map _ _ resumeAll_ID_pointwise hd
    · exact lastMax_map _ _ (fun t => rfl) hd
    · intro u hu; cases hu
    · exact lastMax_append _ _ hd rfl
  | tickMsg =>
    simp only [update, tickCase]
    split
    · split <;> exact lastMax_map _ _ tickTimer_ID h
    · exact lastMax_map _ _ tickTimer_ID h
  | blinkMsg => exact h

theorem alarmInv_step (m : Model) (msg : Msg) (h : AlarmInv m) :
    AlarmInv (update m msg).1 := by
  cases msg with
  | windowSizeMsg w h2 =>
    intro hne
    rw [show (update m (Msg.windowSizeMsg w h2)).1 =
      (finishUpdate { m with width := w, height := h2 } (Msg.windowSizeMsg w h2)).1 from rfl,
      finishUpdate_alarmCancel] at hne
    rw [show (update m (Msg.windowSizeMsg w h2)).1.timers =
      m.timers from finishUpdate_timers _ _]
    exact h hne
  | keyMsg s =>
    intro hne
    exact absurd (update_keyMsg_alarmCancel m s) hne
  | tickMsg =>
    simp only [update, tickCase]
    split
    · rename_i hany
      intro _
      obtain ⟨t, ht, hfin⟩ := List.any_eq_true.mp hany
      refine ⟨tickTimer t, ?_, (tickTimer_of_finishes t hfin).2.2.2⟩
      split <;> exact List.mem_map_of_mem _ ht
    · intro hne
      obtain ⟨t, ht, hal⟩ := h hne
      exact ⟨tickTimer t, List.mem_map_of_mem _ ht, tickTimer_alarming t hal⟩
  | blinkMsg =>
    intro hne
    obtain ⟨t, ht, hal⟩ := h hne
    exact ⟨t, ht, hal⟩

/-! ### Reachability -/

theorem invariant_of_reachable {P : Model → Prop} (h0 : P initialModel)
    (hstep : ∀ m msg, P m → P (update m msg).1) :
    ∀ m, Reachable m → P m := by
  have key : ∀ (msgs : List Msg) (s : Model), P s → P (applyMsgs s msgs) := by
    intro msgs
    induction msgs with
    | nil => intro s hs; exact hs
    | cons a l ih => intro s hs; exact ih _ (hstep _ _ hs)
  rintro m ⟨msgs, rfl⟩
  exact key msgs initialModel h0

theorem reachable_alarmInv (m : Model) (hr : Reachable m) : AlarmInv m := by
  refine invariant_of_reachable ?_ alarmInv_step m hr
  intro hne
  exact absurd rfl hne

theorem reachable_finStop (m : Model) (hr : Reachable m) : FinStop m.timers := by
  refine invariant_of_reachable (P := fun m => FinStop m.timers) ?_ finStop_step m hr
  intro t ht
  cases ht

theorem reachable_lastMax (m : Model) (hr : Reachable m) : LastMax m.timers := by
  refine invariant_of_reachable (P := fun m => LastMax m.timers) ?_ lastMax_step m hr
  intro t ht
  cases ht

theorem reachable_handle_none (m : Model) (hr : Reachable m)
    (hA : ∀ t ∈ m.timers, t.Alarming = false) : m.alarmCancel = none := by
  by_contra hne
  obtain ⟨t, ht, hal⟩ := reachable_alarmInv m hr hne
  rw [hA t ht] at hal
  cases hal

/-! ### Key handling lemmas -/

theorem update_keyMsg_alarming (m : Model) (s : String)
    (h : (m.timers.any (·.Alarming)) = true) :
    update m (Msg.keyMsg s) = (cancelAndClear { m with timers := dismissAlarms m.timers }, []) := by
  simp only [update]
  rw [if_pos h]

theorem update_nav_key (m : Model) (s : String)
    (hA : (m.timers.any (·.Alarming)) = false)
    (hs : s = "tab" ∨ s = "shift+tab" ∨ s = "left" ∨ s = "right" ∨ s = "up" ∨ s = "down") :
    (update m (Msg.keyMsg s)).1.focusIndex =
      clampFocus (navUpdate s m.focusIndex m.focusState).1 ∧
    (update m (Msg.keyMsg s)).1.focusState = (navUpdate s m.focusIndex m.focusState).2 ∧
    (update m (Msg.keyMsg s)).1.timers = dismissAlarms m.timers := by
  have hnq : ¬(s = "ctrl+c" ∨ s = "q") := by
    rcases hs with h | h | h | h | h | h <;> subst h <;> decide
  have h1 : ¬((m.timers.any fun t => t.Alarming) = true) := by simp [hA]
  simp only [update]
  rw [if_neg h1, if_neg hnq, if_pos hs]
  refine ⟨?_, ?_, ?_⟩
  · rw [navCase_focusIndex]
    simp only [cancelAndClear_focusIndex, cancelAndClear_focusState]
  · rw [navCase_focusState]
    simp only [cancelAndClear_focusIndex, cancelAndClear_focusState]
  · rw [navCase_timers, cancelAndClear_timers]

/-- The focus transition of a single `tab` press: increment then wrap/clamp. -/
def tabNext (fi : Int) : Int :=
  clampFocus (if fi + 1 > QUIT then INPUT else fi + 1)

theorem navUpdate_tab_fst (fi fs : Int) :
    (navUpdate "tab" fi fs).1 = if fi + 1 > QUIT then INPUT else fi + 1 := rfl

theorem navUpdate_shiftTab_fst (fi fs : Int) :
    (navUpdate "shift+tab" fi fs).1 = if fi - 1 < INPUT then QUIT else fi - 1 := rfl

theorem navUpdate_up_fst (fi fs : Int) :
    (navUpdate "up" fi fs).1 = if fi > INPUT then INPUT else fi := rfl

theorem navUpdate_up_snd (fi fs : Int) : (navUpdate "up" fi fs).2 = fs := rfl

theorem navUpdate_down_eq (fi fs : Int) :
    navUpdate "down" fi fs =
      if fi = INPUT then (if fs > INPUT then fs else ADD, fs) else (fi, fs) := rfl

theorem navUpdate_down_fst (fi fs : Int) :
    (navUpdate "down" fi fs).1 =
      if fi = INPUT then (if fs > INPUT then fs else ADD) else fi := by
  rw [navUpdate_down_eq]
  split <;> rfl

theorem navUpdate_down_snd (fi fs : Int) : (navUpdate "down" fi fs).2 = fs := by
  rw [navUpdate_down_eq]
  split <;> rfl

theorem navUpdate_left_eq (fi fs : Int) :
    navUpdate "left" fi fs =
      if fi = INPUT then (fi, fs)
      else if fi = ADD then (QUIT, QUIT)
      else (fi - 1, fi - 1) := rfl

theorem navUpdate_left_fst (fi fs : Int) :
    (navUpdate "left" fi fs).1 =
      if fi = INPUT then fi else if fi = ADD then QUIT else fi - 1 := by
  rw [navUpdate_left_eq]
  split
  · rfl
  · split <;> rfl

theorem navUpdate_right_eq (fi fs : Int) :
    navUpdate "right" fi fs =
      if fi = INPUT then (fi, fs)
      else if fi = QUIT then (ADD, ADD)
      else (fi + 1, fi + 1) := rfl

theorem navUpdate_right_fst (fi fs : Int) :
    (navUpdate "right" fi fs).1 =
      if fi = INPUT then fi else if fi = QUIT then ADD else fi + 1 := by
  rw [navUpdate_right_eq]
  split
  · rfl
  · split <;> rfl

theorem tab_step (x : Model) (hAx : (x.timers.any (·.Alarming)) = false) :
    (update x (Msg.keyMsg "tab")).1.focusIndex = tabNext x.focusIndex ∧
    (update x (Msg.keyMsg "tab")).1.timers = dismissAlarms x.timers := by
  obtain ⟨h1, -, h3⟩ := update_nav_key x "tab" hAx (by tauto)
  refine ⟨?_, h3⟩
  rw [h1, navUpdate_tab_fst]
  rfl

/-- C8: tab cycles forward with wraparound Quit→Input, shift+tab cycles
backward with wraparound Input→Quit, six tab presses return to the starting
focus, left from Add wraps to Quit and right from Quit wraps to Add (all in
a state with no active alarm, since a key press during an alarm is consumed
by alarm dismissal, and with the focus on one of the six controls). -/
theorem C8_focus_cycle (m : Model)
    (hA : ∀ t ∈ m.timers, t.Alarming = false)
    (h0 : 0 ≤ m.focusIndex) (h5 : m.focusIndex ≤ QUIT) :
    ((update m (Msg.keyMsg "tab")).1.focusIndex =
      if m.focusIndex = QUIT then INPUT else m.focusIndex + 1) ∧
    ((update m (Msg.keyMsg "shift+tab")).1.focusIndex =
      if m.focusIndex = INPUT then QUIT else m.focusIndex - 1) ∧
    ((update (update (update (update (update (update m (Msg.keyMsg "tab")).1
        (Msg.keyMsg "tab")).1 (Msg.keyMsg "tab")).1 (Msg.keyMsg "tab")).1
        (Msg.keyMsg "tab")).1 (Msg.keyMsg "tab")).1.focusIndex = m.focusIndex) ∧
    (m.focusIndex = ADD → (update m (Msg.keyMsg "left")).1.focusIndex = QUIT) ∧
    (m.focusIndex = QUIT → (update m (Msg.keyMsg "right")).1.focusIndex = ADD) := by
  have hA0 : (m.timers.any (·.Alarming)) = false := not_any_of_forall_not_alarming _ hA
  simp only [QUIT] at h5
  refine ⟨?_, ?_, ?_, ?_, ?_⟩
  · rw [(tab_step m hA0).1]
    unfold tabNext clampFocus
    simp only [INPUT, QUIT]
    split_ifs <;> omega
  · obtain ⟨h1, -, -⟩ := update_nav_key m "shift+tab" hA0 (by tauto)
    rw [h1, navUpdate_shiftTab_fst]
    unfold clampFocus
    simp only [INPUT, QUIT]
    split_ifs <;> omega
  · have s1 := tab_step m hA0
    have e1 := s1.2 ▸ dismissAlarms_any m.timers
    have s2 := tab_step _ e1
    have e2 := s2.2 ▸ dismissAlarms_any _
    have s3 := tab_step _ e2
    have e3 := s3.2 ▸ dismissAlarms_any _
    have s4 := tab_step _ e3
    have e4 := s4.2 ▸ dismissAlarms_any _
    have s5 := tab_step _ e4
    have e5 := s5.2 ▸ dismissAlarms_any _
    have s6 := tab_step _ e5
    rw [s6.1, s5.1, s4.1, s3.1, s2.1, s1.1]
    have key : ∀ fi : Int, 0 ≤ fi → fi ≤ 5 →
        tabNext (tabNext (tabNext (tabNext (tabNext (tabNext fi))))) = fi := by
      intro fi hlo hhi
      interval_cases fi <;> decide
    exact key m.focusIndex h0 h5
  · intro hi
    obtain ⟨h1, -, -⟩ := update_nav_key m "left" hA0 (by tauto)
    rw [h1, navUpdate_left_fst, hi]
    decide
  · intro hi
    obtain ⟨h1, -, -⟩ := update_nav_key m "right" hA0 (by tauto)
    rw [h1, navUpdate_right_fst, hi]
    decide

/-- C8 witness at the initial model (focus on Input, no timers). -/
theorem C8_focus_cycle_witness :
    (update initialModel (Msg.keyMsg "tab")).1.focusIndex = ADD := by
  have h := (C8_focus_cycle initialModel
    (fun t ht => absurd ht (List.not_mem_nil t)) (by decide) (by decide)).1
  rw [h]
  decide

/-- C9: `up` jumps to Input from any other control leaving the focus memory
unchanged and is a no-op on Input; `down` from Input jumps to the remembered
control when the memory holds a non-Input control and defaults to Add
otherwise; the initial memory is Input (never set), so a `down` before any
non-input control was visited lands on Add.  (Framed at states with no
active alarm and with focus and memory among the six controls.) -/
theorem C9_up_down_memory (m : Model)
    (hA : ∀ t ∈ m.timers, t.Alarming = false)
    (h0 : 0 ≤ m.focusIndex) (h5 : m.focusIndex ≤ QUIT)
    (hs0 : 0 ≤ m.focusState) (hs5 : m.focusState ≤ QUIT) :
    (m.focusIndex ≠ INPUT →
      (update m (Msg.keyMsg "up")).1.focusIndex = INPUT ∧
      (update m (Msg.keyMsg "up")).1.focusState = m.focusState) ∧
    (m.focusIndex = INPUT →
      (update m (Msg.keyMsg "up")).1.focusIndex = INPUT ∧
      (update m (Msg.keyMsg "up")).1.focusState = m.focusState) ∧
    (m.focusIndex = INPUT →
      (update m (Msg.keyMsg "down")).1.focusIndex =
        (if m.focusState > INPUT then m.focusState else ADD) ∧
      (update m (Msg.keyMsg "down")).1.focusState = m.focusState) ∧
    initialModel.focusState = INPUT := by
  have hA0 : (m.timers.any (·.Alarming)) = false := not_any_of_forall_not_alarming _ hA
  simp only [QUIT] at h5 hs5
  obtain ⟨hu1, hu2, -⟩ := update_nav_key m "up" hA0 (by tauto)
  obtain ⟨hd1, hd2, -⟩ := update_nav_key m "down" hA0 (by tauto)
  rw [navUpdate_up_fst] at hu1
  rw [navUpdate_up_snd] at hu2
  rw [navUpdate_down_fst] at hd1
  rw [navUpdate_down_snd] at hd2
  refine ⟨?_, ?_, ?_, rfl⟩
  · intro hne
    refine ⟨?_, hu2⟩
    rw [hu1]
    unfold clampFocus
    simp only [INPUT, QUIT] at hne ⊢
    split_ifs <;> omega
  · intro hin
    refine ⟨?_, hu2⟩
    rw [hu1]
    unfold clampFocus
    simp only [INPUT, QUIT] at hin ⊢
    split_ifs <;> omega
  · intro hin
    refine ⟨?_, hd2⟩
    rw [hd1, if_pos hin]
    unfold clampFocus
    simp only [INPUT, ADD, QUIT]
    split_ifs <;> omega

/-- C9 witness: from the initial model (focus Input, memory never set), a
`down` press lands on Add. -/
theorem C9_up_down_memory_witness :
    (update initialModel (Msg.keyMsg "down")).1.focusIndex = ADD := by
  have h := ((C9_up_down_memory initialModel
    (fun t ht => absurd ht (List.not_mem_nil t))
    (by decide) (by decide) (by decide) (by decide)).2.2.1 rfl).1
  rw [h]
  decide

/-! ### Tick lemmas -/

theorem update_tick_timers (m : Model) :
    (update m Msg.tickMsg).1.timers = m.timers.map tickTimer := by
  simp only [update, tickCase]
  split
  · split <;> rfl
  · rfl

theorem update_tick_tickCmd (m : Model) : Cmd.tickCmd ∈ (update m Msg.tickMsg).2 := by
  simp only [update, tickCase]
  split
  · split <;> simp
  · simp

/-- C1: on a second tick, every running timer with time left is decremented
by one second and clamped at zero; a timer whose remaining time thereby
reaches zero stops, finishes and starts alarming; every other timer is
unchanged; and the tick always reschedules itself, in the alarm-triggering
and non-triggering cases alike. -/
theorem C1_second_tick (m : Model) :
    (update m Msg.tickMsg).1.timers.length = m.timers.length ∧
    (∀ (i : Nat) (t : Timer), m.timers[i]? = some t →
      ∃ t', (update m Msg.tickMsg).1.timers[i]? = some t' ∧
        (t.Running = true ∧ 0 < t.Remaining →
          t'.Remaining = max (t.Remaining - second) 0 ∧
          t'.ID = t.ID ∧ t'.Duration = t.Duration ∧
          (t'.Remaining = 0 →
            t'.Running = false ∧ t'.Finished = true ∧ t'.Alarming = true) ∧
          (t'.Remaining ≠ 0 →
            t' = { t with Remaining := t.Remaining - second })) ∧
        (¬(t.Running = true ∧ 0 < t.Remaining) → t' = t)) ∧
    Cmd.tickCmd ∈ (update m Msg.tickMsg).2 := by
  refine ⟨?_, ?_, update_tick_tickCmd m⟩
  · rw [update_tick_timers]
    exact List.length_map _ _
  · intro i t ht
    rw [update_tick_timers, List.getElem?_map, ht]
    refine ⟨tickTimer t, rfl, ?_, ?_⟩
    · intro hrun
      unfold tickTimer
      rw [if_pos hrun]
      split
      · rename_i hle
        refine ⟨?_, rfl, rfl, fun _ => ⟨rfl, rfl, rfl⟩, fun hne => absurd rfl hne⟩
        rw [max_eq_right hle]
      · rename_i hgt
        push_neg at hgt
        refine ⟨?_, rfl, rfl, fun h0 => absurd h0 (by simpa using hgt.ne.symm), fun _ => rfl⟩
        rw [max_eq_left (le_of_lt hgt)]
    · intro hrun
      unfold tickTimer
      rw [if_neg hrun]

def mC1wit : Model :=
  { initialModel with timers :=
      [{ ID := 1, Duration := second, Remaining := second,
         Running := true, Finished := false, Alarming := false }] }

/-- C1 witness: one running one-second timer; after the tick it is finished,
stopped, alarming, clamped at zero, and the tick rescheduled. -/
theorem C1_second_tick_witness :
    ∃ t', (update mC1wit Msg.tickMsg).1.timers[0]? = some t' ∧
      t'.Remaining = 0 ∧ t'.Running = false ∧ t'.Finished = true ∧
      t'.Alarming = true ∧ Cmd.tickCmd ∈ (update mC1wit Msg.tickMsg).2 := by
  obtain ⟨-, hel, hcmd⟩ := C1_second_tick mC1wit
  obtain ⟨t', h1, h2, -⟩ := hel 0 _ rfl
  obtain ⟨hrem, -, -, hz, -⟩ := h2 ⟨rfl, by decide⟩
  have h0 : t'.Remaining = 0 := by rw [hrem]; decide
  obtain ⟨hr, hf, ha⟩ := hz h0
  exact ⟨t', h1, h0, hr, hf, ha, hcmd⟩

/-- C2: a tick on which at least one timer newly reaches zero starts exactly
one alarm-sound task (not one per finishing timer), records its handle, and
cancels any previously running sound task first. -/
theorem C2_single_alarm_task (m : Model)
    (h : ∃ t ∈ m.timers, timerFinishesNow t = true) :
    ((update m Msg.tickMsg).2.filter Cmd.isStartSound).length = 1 ∧
    (∃ ctx, (update m Msg.tickMsg).1.alarmCancel = some ctx ∧
      Cmd.startSound ctx ∈ (update m Msg.tickMsg).2) ∧
    (∀ c, m.alarmCancel = some c →
      (update m Msg.tickMsg).1.cancelled = m.cancelled ++ [c]) ∧
    (m.alarmCancel = none → (update m Msg.tickMsg).1.cancelled = m.cancelled) := by
  have hany : (m.timers.any timerFinishesNow) = true := List.any_eq_true.mpr h
  simp only [update, tickCase]
  rw [if_pos hany]
  refine ⟨?_, ?_, ?_, ?_⟩
  · cases hac : m.alarmCancel <;> simp only [hac] <;> simp [Cmd.isStartSound]
  · cases hac : m.alarmCancel <;> simp only [hac] <;> exact ⟨m.nextCtx, rfl, by simp⟩
  · intro c hc
    simp [hc]
  · intro hc
    simp [hc]

def mC2wit : Model :=
  { initialModel with
      timers :=
        [{ ID := 1, Duration := second, Remaining := second,
           Running := true, Finished := false, Alarming := false },
         { ID := 2, Duration := second, Remaining := second,
           Running := true, Finished := false, Alarming := false }],
      alarmCancel := some 7 }

/-- C2 witness: two timers finishing on the same tick with a sound task
already running: one new task started, the old handle cancelled. -/
theorem C2_single_alarm_task_witness :
    ((update mC2wit Msg.tickMsg).2.filter Cmd.isStartSound).length = 1 ∧
    (update mC2wit Msg.tickMsg).1.cancelled = [7] := by
  obtain ⟨h1, -, h3, -⟩ := C2_single_alarm_task mC2wit
    ⟨_, List.mem_cons_self _ _, by decide⟩
  exact ⟨h1, h3 7 rfl⟩

/-- C3: any key press while some timer is alarming clears `Alarming` on every
timer, cancels the in-flight sound task and clears its handle, changes
nothing else (focus, focus memory, the timers' other fields, the input text;
the timer list keeps its length, so no timer is created or removed),
and performs no other action (no commands are issued). -/
theorem C3_alarm_dismissal (m : Model) (s : String)
    (h : ∃ t ∈ m.timers, t.Alarming = true) :
    (update m (Msg.keyMsg s)).1.timers.length = m.timers.length ∧
    (∀ t' ∈ (update m (Msg.keyMsg s)).1.timers, t'.Alarming = false) ∧
    (∀ (i : Nat) (t : Timer), m.timers[i]? = some t →
      (update m (Msg.keyMsg s)).1.timers[i]? = some { t with Alarming := false }) ∧
    (update m (Msg.keyMsg s)).1.alarmCancel = none ∧
    (∀ c, m.alarmCancel = some c → c ∈ (update m (Msg.keyMsg s)).1.cancelled) ∧
    (update m (Msg.keyMsg s)).1.focusIndex = m.focusIndex ∧
    (update m (Msg.keyMsg s)).1.focusState = m.focusState ∧
    (update m (Msg.keyMsg s)).1.textValue = m.textValue ∧
    (update m (Msg.keyMsg s)).2 = [] := by
  have hany : (m.timers.any (·.Alarming)) = true := List.any_eq_true.mpr h
  have he := update_keyMsg_alarming m s hany
  rw [he]
  refine ⟨?_, ?_, ?_, cancelAndClear_alarmCancel _, ?_, ?_, ?_, ?_, rfl⟩
  · simp only [cancelAndClear_timers]
    exact List.length_map _ _
  · intro t' ht'
    simp only [cancelAndClear_timers] at ht'
    exact dismissAlarms_alarming _ t' ht'
  · intro i t ht
    simp only [cancelAndClear_timers]
    exact dismissAlarms_getElem? _ i t ht
  · intro c hc
    exact mem_cancelAndClear_cancelled _ c hc
  · rw [cancelAndClear_focusIndex]
  · rw [cancelAndClear_focusState]
  · rw [cancelAndClear_textValue]

def mC3wit : Model :=
  { initialModel with
      timers :=
        [{ ID := 1, Duration := second, Remaining := 0,
           Running := false, Finished := true, Alarming := true }],
      alarmCancel := some 3,
      focusIndex := START, focusState := START, textValue := "5s" }

/-- C3 witness: a key press on a state with one alarming timer and a running
sound task: the alarm is cleared, the handle cancelled, focus and text kept,
and the key produces no command. -/
theorem C3_alarm_dismissal_witness :
    (update mC3wit (Msg.keyMsg "tab")).1.timers.length = 1 ∧
    (update mC3wit (Msg.keyMsg "tab")).1.timers[0]? =
      some { ID := 1, Duration := second, Remaining := 0,
             Running := false, Finished := true, Alarming := false } ∧
    (update mC3wit (Msg.keyMsg "tab")).1.alarmCancel = none ∧
    3 ∈ (update mC3wit (Msg.keyMsg "tab")).1.cancelled ∧
    (update mC3wit (Msg.keyMsg "tab")).1.focusIndex = START ∧
    (update mC3wit (Msg.keyMsg "tab")).1.textValue = "5s" ∧
    (update mC3wit (Msg.keyMsg "tab")).2 = [] := by
  obtain ⟨hlen, -, hel, hnone, hmem, hfi, -, htv, hcmds⟩ :=
    C3_alarm_dismissal mC3wit "tab" ⟨_, List.mem_cons_self _ _, rfl⟩
  exact ⟨hlen, hel 0 _ rfl, hnone, hmem 3 rfl, hfi, htv, hcmds⟩

theorem update_keyMsg_cancelled (m : Model) (s : String) :
    (update m (Msg.keyMsg s)).1.cancelled =
      (cancelAndClear { m with timers := dismissAlarms m.timers }).cancelled := by
  simp only [update]
  split
  · rfl
  · split
    · rfl
    · split
      · rw [navCase_cancelled]
      · split
        · simp only [enterCase]
          split
          · rw [finishUpdate_cancelled, createTimer_cancelled]
          · split
            · rw [finishUpdate_cancelled, createTimer_cancelled]
            · split
              · rw [finishUpdate_cancelled]
              · split
                · rw [finishUpdate_cancelled]
                · split
                  · rw [finishUpdate_cancelled,
                      cancelAndClear_of_none _ (cancelAndClear_alarmCancel _)]
                  · split
                    · simp only [cancelAndClear_alarmCancel]
                    · rw [finishUpdate_cancelled]
        · rw [finishUpdate_cancelled]

/-- C10: the alarm-task handle is non-empty only when some timer is alarming
in every reachable state; every key press unconditionally clears the handle
and logs the cancellation of any in-flight task (even on the no-alarm
pass-through path); and the handle/alarming invariant is preserved by every
event. -/
theorem C10_alarm_handle_invariant :
    (∀ m : Model, Reachable m → m.alarmCancel ≠ none →
      ∃ t ∈ m.timers, t.Alarming = true) ∧
    (∀ (m : Model) (s : String), (update m (Msg.keyMsg s)).1.alarmCancel = none) ∧
    (∀ (m : Model) (s : String) (c : Nat), m.alarmCancel = some c →
      c ∈ (update m (Msg.keyMsg s)).1.cancelled) ∧
    (∀ (m : Model) (msg : Msg), AlarmInv m → AlarmInv (update m msg).1) := by
  refine ⟨fun m hr => reachable_alarmInv m hr, update_keyMsg_alarmCancel, ?_, alarmInv_step⟩
  intro m s c hc
  rw [update_keyMsg_cancelled]
  exact mem_cancelAndClear_cancelled _ c hc

/-- C10 witness: a key press on a state holding task handle 7 logs its
cancellation and clears the handle; and the initial model is reachable with
an empty handle. -/
theorem C10_alarm_handle_invariant_witness :
    7 ∈ (update { initialModel with alarmCancel := some 7 } (Msg.keyMsg "a")).1.cancelled ∧
    (update initialModel (Msg.keyMsg "a")).1.alarmCancel = none := by
  exact ⟨C10_alarm_handle_invariant.2.2.1 _ "a" 7 rfl,
    C10_alarm_handle_invariant.2.1 initialModel "a"⟩

/-- C5: `resumeAll` (the START action) restarts only unfinished timers and
leaves finished timers completely untouched; and in every reachable state no
finished timer is running — once finished, no event sequence (in particular
no sequence of resumeAll calls) ever sets `Running` back to true. -/
theorem C5_finished_never_resumes :
    (∀ (ts : List Timer) (i : Nat) (t : Timer), ts[i]? = some t →
      t.Finished = true → (resumeAll ts)[i]? = some t) ∧
    (∀ m : Model, Reachable m → ∀ t ∈ m.timers, t.Finished = true →
      t.Running = false) := by
  refine ⟨?_, fun m hr => reachable_finStop m hr⟩
  intro ts i t ht hfin
  unfold resumeAll
  rw [List.getElem?_map, ht]
  simp only [Option.map_some']
  rw [if_neg (by simp [hfin])]

def tC5wit : Timer :=
  { ID := 1, Duration := second, Remaining := 0,
    Running := false, Finished := true, Alarming := false }

/-- C5 witness: a finished timer survives `resumeAll` unchanged, and the
initial (reachable) model has no running finished timer. -/
theorem C5_finished_never_resumes_witness :
    (resumeAll [tC5wit])[0]? = some tC5wit ∧
    (∀ t ∈ initialModel.timers, t.Finished = true → t.Running = false) :=
  ⟨C5_finished_never_resumes.1 [tC5wit] 0 tC5wit rfl rfl,
   C5_finished_never_resumes.2 initialModel ⟨[], rfl⟩⟩

/-- C4: an enter press with focus on Input or Add whose text parses to a
positive duration `d` appends exactly one new timer at the end, with `ID`
equal to the maximum existing `ID` plus one (1 on an empty registry),
`Remaining = Duration = d`, running, not finished, not alarming, and clears
the input text; all pre-existing timers are unchanged.  (Framed at reachable
states with no active alarm, since a key press during an alarm is consumed
by alarm dismissal.) -/
theorem C4_timer_creation (m : Model) (d : Int)
    (hr : Reachable m)
    (hA : ∀ t ∈ m.timers, t.Alarming = false)
    (hf : m.focusIndex = INPUT ∨ m.focusIndex = ADD)
    (hp : parseDuration m.textValue = some d) (hd : 0 < d) :
    ∃ nid : Int,
      (update m (Msg.keyMsg "enter")).1.timers = m.timers ++
        [{ ID := nid, Duration := d, Remaining := d,
           Running := true, Finished := false, Alarming := false }] ∧
      (m.timers = [] → nid = 1) ∧
      (m.timers ≠ [] →
        (∀ t ∈ m.timers, t.ID < nid) ∧ ∃ t ∈ m.timers, nid = t.ID + 1) ∧
      (update m (Msg.keyMsg "enter")).1.textValue = "" := by
  have hA0 : (m.timers.any (·.Alarming)) = false := not_any_of_forall_not_alarming _ hA
  have hds : dismissAlarms m.timers = m.timers := dismissAlarms_eq_self _ hA
  have hm1 : cancelAndClear { m with timers := dismissAlarms m.timers } = m := by
    rw [hds]
    exact cancelAndClear_of_none _ (reachable_handle_none m hr hA)
  have hstep : update m (Msg.keyMsg "enter") = enterCase m (Msg.keyMsg "enter") := by
    simp only [update]
    rw [if_neg (by simp [hA0]), if_neg (by decide), if_neg (by decide), if_pos trivial, hm1]
  have hec : enterCase m (Msg.keyMsg "enter") =
      finishUpdate (createTimer m) (Msg.keyMsg "enter") := by
    simp only [enterCase]
    rcases hf with hf | hf
    · rw [if_pos hf]
    · rw [if_neg (by rw [hf]; decide), if_pos hf]
  have hct : createTimer m =
      { m with
        timers := m.timers ++
          [{ ID := GetNewID m, Duration := d, Remaining := d,
             Running := true, Finished := false, Alarming := false }],
        textValue := "" } := by
    simp only [createTimer, hp]
    rw [if_pos hd]
  refine ⟨GetNewID m, ?_, ?_, ?_, ?_⟩
  · rw [hstep, hec, finishUpdate_timers, hct]
  · intro he
    simp [GetNewID, he]
  · intro hne
    have hemp : m.timers.isEmpty = false := by
      cases hts : m.timers with
      | nil => exact absurd hts hne
      | cons a l => rfl
    have hgn : GetNewID m = lastID m.timers + 1 := by
      simp [GetNewID, hemp]
    constructor
    · intro t ht
      have := reachable_lastMax m hr t ht
      omega
    · obtain ⟨t, ht, hid⟩ := exists_mem_lastID m.timers (by simp [hemp])
      exact ⟨t, ht, by omega⟩
  · rw [hstep, hec, finishUpdate_textValue]
    split
    · rw [hct]
      simp [textInputUpdateValue_enter]
    · rw [hct]

/-- C4 witness: after typing "5s" from the initial model, enter creates the
single timer with ID 1, Duration = Remaining = 5s, running, and clears the
text. -/
theorem C4_timer_creation_witness :
    (update (applyMsgs initialModel [Msg.keyMsg "5", Msg.keyMsg "s"])
        (Msg.keyMsg "enter")).1.timers =
      [{ ID := 1, Duration := 5000000000, Remaining := 5000000000,
         Running := true, Finished := false, Alarming := false }] ∧
    (update (applyMsgs initialModel [Msg.keyMsg "5", Msg.keyMsg "s"])
        (Msg.keyMsg "enter")).1.textValue = "" := by
  have hts : (applyMsgs initialModel [Msg.keyMsg "5", Msg.keyMsg "s"]).timers = [] := by decide
  obtain ⟨nid, h1, h2, -, h4⟩ := C4_timer_creation
    (applyMsgs initialModel [Msg.keyMsg "5", Msg.keyMsg "s"]) 5000000000
    ⟨[Msg.keyMsg "5", Msg.keyMsg "s"], rfl⟩
    (by rw [hts]; intro t ht; exact absurd ht (List.not_mem_nil t))
    (Or.inl (by decide))
    (by decide) (by decide)
  rw [hts] at h1
  rw [h2 hts] at h1
  exact ⟨h1, h4⟩

/-- C7: an enter press on Input or Add whose text is unparseable or parses
to a non-positive duration leaves the state completely unchanged: no timer
is created and the input text is retained.  (Framed at reachable states with
no active alarm, since a key press during an alarm is consumed by alarm
dismissal.) -/
theorem C7_invalid_input_noop (m : Model)
    (hr : Reachable m)
    (hA : ∀ t ∈ m.timers, t.Alarming = false)
    (hf : m.focusIndex = INPUT ∨ m.focusIndex = ADD)
    (hp : parseDuration m.textValue = none ∨
      ∃ d, parseDuration m.textValue = some d ∧ d ≤ 0) :
    (update m (Msg.keyMsg "enter")).1 = m := by
  have hA0 : (m.timers.any (·.Alarming)) = false := not_any_of_forall_not_alarming _ hA
  have hds : dismissAlarms m.timers = m.timers := dismissAlarms_eq_self _ hA
  have hm1 : cancelAndClear { m with timers := dismissAlarms m.timers } = m := by
    rw [hds]
    exact cancelAndClear_of_none _ (reachable_handle_none m hr hA)
  have hstep : update m (Msg.keyMsg "enter") = enterCase m (Msg.keyMsg "enter") := by
    simp only [update]
    rw [if_neg (by simp [hA0]), if_neg (by decide), if_neg (by decide), if_pos trivial, hm1]
  have hec : enterCase m (Msg.keyMsg "enter") =
      finishUpdate (createTimer m) (Msg.keyMsg "enter") := by
    simp only [enterCase]
    rcases hf with hf | hf
    · rw [if_pos hf]
    · rw [if_neg (by rw [hf]; decide), if_pos hf]
  have hct : createTimer m = m := by
    simp only [createTimer]
    rcases hp with hp | ⟨d, hp, hdle⟩
    · simp only [hp]
    · simp only [hp]
      rw [if_neg (by omega)]
  rw [hstep, hec, hct]
  unfold finishUpdate
  split
  · rw [textInputUpdateValue_enter]
  · rfl

/-- C7 witness: after typing "a" from the initial model, enter changes
nothing (no timer, text retained). -/
theorem C7_invalid_input_noop_witness :
    (update (applyMsgs initialModel [Msg.keyMsg "a"]) (Msg.keyMsg "enter")).1 =
      applyMsgs initialModel [Msg.keyMsg "a"] := by
  refine C7_invalid_input_noop _ ⟨[Msg.keyMsg "a"], rfl⟩ ?_ (Or.inl (by decide))
    (Or.inl (by decide))
  intro t ht
  rw [show (applyMsgs initialModel [Msg.keyMsg "a"]).timers = [] from by decide] at ht
  exact absurd ht (List.not_mem_nil t)

/-! ### The duration format claimed by the spec (C6) -/

/-- The accepted-format predicate written from the spec's words (for
comparison with the parser the code actually calls): one or more
`<integer><unit>` pairs concatenated, with unit among `s`, `m`, `h`
(e.g. "10s", "5m", "1h30m"). -/
def specFormatCore : Nat → List Char → Bool
  | _, [] => true
  | 0, _ => false
  | fuel + 1, s =>
    let ds := s.takeWhile Char.isDigit
    let rest := s.dropWhile Char.isDigit
    if ds.isEmpty then false
    else
      match rest with
      | [] => false
      | c :: rest2 => (c == 's' || c == 'm' || c == 'h') && specFormatCore fuel rest2

/-- A non-empty sequence of `<integer><unit>` pairs with `s`/`m`/`h` units:
the exact format the spec claims the parser accepts. -/
def specDurationFormat (str : String) : Bool :=
  !str.data.isEmpty && specFormatCore (str.data.length + 1) str.data

/-- C6 counterexample: "500ms" is outside the claimed `<integer><s|m|h>`
pair format, yet the code's parser (Go `time.ParseDuration`) accepts it as a
positive duration (half a second) and an enter press creates a timer from
it — so the parser does not accept *exactly* the claimed format, and inputs
outside that format do create timers. -/
theorem C6_parser_counterexample :
    specDurationFormat "500ms" = false ∧
    parseDuration "500ms" = some 500000000 ∧
    (update { initialModel with textValue := "500ms" }
        (Msg.keyMsg "enter")).1.timers =
      [{ ID := 1, Duration := 500000000, Remaining := 500000000,
         Running := true, Finished := false, Alarming := false }] := by
  refine ⟨by decide, by decide, by decide⟩

/-- C6 amended: the parser (Go `time.ParseDuration`) accepts the claimed
compound s/m/h integer literals and rejects empty and non-numeric text, and
non-positive results ("0s", "-5s") create no timer; but it also accepts
finer unit suffixes and fractional magnitudes ("500ms", "1.5s"), and a timer
is created by an enter press (focus on Input or Add, no alarm active)
exactly when the parse succeeds with a positive result. -/
theorem C6_parser_amended :
    parseDuration "" = none ∧
    parseDuration "abc" = none ∧
    parseDuration "10s" = some 10000000000 ∧
    parseDuration "5m" = some 300000000000 ∧
    parseDuration "1h30m" = some 5400000000000 ∧
    parseDuration "0s" = some 0 ∧
    parseDuration "-5s" = some (-5000000000) ∧
    parseDuration "500ms" = some 500000000 ∧
    parseDuration "1.5s" = some 1500000000 ∧
    (∀ m : Model, (∀ t ∈ m.timers, t.Alarming = false) →
      m.focusIndex = INPUT ∨ m.focusIndex = ADD →
      ((update m (Msg.keyMsg "enter")).1.timers.length = m.timers.length + 1 ↔
        ∃ d, parseDuration m.textValue = some d ∧ 0 < d)) := by
  refine ⟨by decide, by decide, by decide, by decide, by decide, by decide,
    by decide, by decide, by decide, ?_⟩
  intro m hA hf
  have hA0 : (m.timers.any (·.Alarming)) = false := not_any_of_forall_not_alarming _ hA
  have hstep : update m (Msg.keyMsg "enter") =
      enterCase (cancelAndClear { m with timers := dismissAlarms m.timers })
        (Msg.keyMsg "enter") := by
    simp only [update]
    rw [if_neg (by simp [hA0]), if_neg (by decide), if_neg (by decide), if_pos trivial]
  have h1t : (cancelAndClear { m with timers := dismissAlarms m.timers }).timers =
      m.timers := by
    rw [cancelAndClear_timers]
    exact dismissAlarms_eq_self _ hA
  have h1v : (cancelAndClear { m with timers := dismissAlarms m.timers }).textValue =
      m.textValue := cancelAndClear_textValue _
  have h1f : (cancelAndClear { m with timers := dismissAlarms m.timers }).focusIndex =
      m.focusIndex := cancelAndClear_focusIndex _
  have hec : enterCase (cancelAndClear { m with timers := dismissAlarms m.timers })
      (Msg.keyMsg "enter") =
      finishUpdate (createTimer (cancelAndClear { m with timers := dismissAlarms m.timers }))
        (Msg.keyMsg "enter") := by
    simp only [enterCase]
    rcases hf with hf | hf
    · rw [if_pos (h1f.trans hf)]
    · rw [if_neg (by rw [h1f, hf]; decide), if_pos (h1f.trans hf)]
  rw [hstep, hec, finishUpdate_timers]
  cases hpd : parseDuration m.textValue with
  | none =>
    have hct : createTimer (cancelAndClear { m with timers := dismissAlarms m.timers }) =
        cancelAndClear { m with timers := dismissAlarms m.timers } := by
      unfold createTimer
      rw [h1v]
      simp only [hpd]
    rw [hct, h1t]
    constructor
    · intro hlen
      exact absurd hlen (by omega)
    · rintro ⟨d2, hd2, -⟩
      exact Option.noConfusion hd2
  | some d =>
    by_cases hdpos : d > 0
    · have hct : createTimer (cancelAndClear { m with timers := dismissAlarms m.timers }) =
          { cancelAndClear { m with timers := dismissAlarms m.timers } with
            timers := (cancelAndClear { m with timers := dismissAlarms m.timers }).timers ++
              [{ ID := GetNewID (cancelAndClear { m with timers := dismissAlarms m.timers }),
                 Duration := d, Remaining := d,
                 Running := true, Finished := false, Alarming := false }],
            textValue := "" } := by
        unfold createTimer
        rw [h1v]
        simp only [hpd]
        rw [if_pos hdpos]
      rw [hct]
      constructor
      · intro _
        exact ⟨d, rfl, hdpos⟩
      · intro _
        simp [h1t]
    · have hct : createTimer (cancelAndClear { m with timers := dismissAlarms m.timers }) =
          cancelAndClear { m with timers := dismissAlarms m.timers } := by
        unfold createTimer
        rw [h1v]
        simp only [hpd]
        rw [if_neg hdpos]
      rw [hct, h1t]
      constructor
      · intro hlen
        exact absurd hlen (by omega)
      · rintro ⟨d2, hd2, hd2pos⟩
        injection hd2 with h2
        exact absurd (h2 ▸ hd2pos) hdpos

/-- C6 amended witness: from a state with text "10s" (focus Input, no
timers), the enter press creates exactly one timer. -/
theorem C6_parser_amended_witness :
    (update { initialModel with textValue := "10s" } (Msg.keyMsg "enter")).1.timers.length =
      ({ initialModel with textValue := "10s" } : Model).timers.length + 1 :=
  (C6_parser_amended.2.2.2.2.2.2.2.2.2 { initialModel with textValue := "10s" }
    (fun t ht => absurd ht (List.not_mem_nil t)) (Or.inl rfl)).mpr
    ⟨10000000000, by decide, by norm_num⟩

end TUITimer
